import Mathlib

/-!
Verification of the loyalty-service balance/redemption core.

Shallow embedding of the TypeScript sources:
- `src/loyalty/repositories/order.repository.ts` (Map userId -> Order[])
- `src/loyalty/repositories/redemption.repository.ts` (Map userId -> Redemption[])
- `src/loyalty/loyalty.service.ts` (calculateBalance, getBalance, redeemPoints /
  executeRedemption, getRedemptionHistory)

Modelling conventions:
- JS `Map<string, T[]>` is modelled as `String → Option (List T)`;
  `map.get(u) || []` is `(m u).getD []`, `map.has(u)` is `(m u).isSome`.
- JS numbers holding points and `Date.getTime()` values are modelled as `Int`.
- `Array.prototype.sort` with comparator `(a, b) => b.timestamp - a.timestamp`
  is stable (ES2019); every stable sort under this consistent comparator
  produces the same list, so it is modelled by the stable `List.insertionSort`
  with the relation `redTimestampLE a b := b.timestamp ≤ a.timestamp`.
- Thrown exceptions are modelled by `Except LoyaltyError`; the constructor
  payloads record the data interpolated into the exception messages.
- `executeRedemption` is a synchronous function in the source, so each of its
  calls runs the validate-then-append step atomically on the event loop; the async
  `redeemPoints` wrapper only manages the per-user lock around it and is
  functionally the same state transformer.
-/

deriving instance DecidableEq for Except

namespace Loyalty

inductive OrderStatus where
  | active
  | cancelled
  | refunded
deriving DecidableEq

structure Order where
  orderId : String
  userId : String
  points : Int
  status : OrderStatus
deriving DecidableEq

structure Redemption where
  redemptionId : String
  userId : String
  points : Int
  timestamp : Int
deriving DecidableEq

/-- The in-memory stores of the two repositories: `ordersByUser` and
`redemptionsByUser` maps. -/
structure StoreState where
  ordersByUser : String → Option (List Order)
  redemptionsByUser : String → Option (List Redemption)

/-- `OrderRepository.findByUserId`: `this.ordersByUser.get(userId) || []`. -/
def ordersFindByUserId (s : StoreState) (userId : String) : List Order :=
  (s.ordersByUser userId).getD []

/-- `OrderRepository.userExists`: `this.ordersByUser.has(userId)`. -/
def userExists (s : StoreState) (userId : String) : Bool :=
  (s.ordersByUser userId).isSome

/-- `RedemptionRepository.findByUserId`: `this.redemptionsByUser.get(userId) || []`. -/
def redemptionsFindByUserId (s : StoreState) (userId : String) : List Redemption :=
  (s.redemptionsByUser userId).getD []

/-- `RedemptionRepository.save`: push onto the array of the user (creating it when
absent) and re-set the map entry. -/
def redemptionsSave (s : StoreState) (r : Redemption) : StoreState :=
  { s with
    redemptionsByUser := fun u =>
      if u = r.userId then some (redemptionsFindByUserId s r.userId ++ [r])
      else s.redemptionsByUser u }

structure BalanceCalc where
  earnedPoints : Int
  redeemedPoints : Int
  balance : Int
deriving DecidableEq

/-- `LoyaltyService.calculateBalance`: filter active orders, reduce the points,
reduce the redemption points, subtract. -/
def calculateBalance (s : StoreState) (userId : String) : BalanceCalc :=
  let orders := ordersFindByUserId s userId
  let redemptions := redemptionsFindByUserId s userId
  let earnedPoints :=
    (orders.filter fun o => o.status == OrderStatus.active).foldl
      (fun sum o => sum + o.points) 0
  let redeemedPoints := redemptions.foldl (fun sum r => sum + r.points) 0
  let balance := earnedPoints - redeemedPoints
  ⟨earnedPoints, redeemedPoints, balance⟩

/-- The typed exceptions thrown by the service; payloads are the data the
source interpolates into the exception messages. -/
inductive LoyaltyError where
  | invalidAmount
  | userNotFound (userId : String)
  | insufficientPoints (available : Int) (requested : Int)
deriving DecidableEq

structure BalanceResponseDto where
  userId : String
  balance : Int
  earnedPoints : Int
  redeemedPoints : Int
deriving DecidableEq

/-- `LoyaltyService.getBalance`. -/
def getBalance (s : StoreState) (userId : String) :
    Except LoyaltyError BalanceResponseDto :=
  if !(userExists s userId) then
    .error (.userNotFound userId)
  else
    let c := calculateBalance s userId
    .ok ⟨userId, c.balance, c.earnedPoints, c.redeemedPoints⟩

/-- `getBalance` as a state transformer: the source performs no writes, so the
returned state is the input state. -/
def getBalanceRun (s : StoreState) (userId : String) :
    (Except LoyaltyError BalanceResponseDto) × StoreState :=
  (getBalance s userId, s)

structure RedemptionResponseDto where
  redemptionId : String
  userId : String
  points : Int
  timestamp : Int
  newBalance : Int
deriving DecidableEq

/-- `LoyaltyService.executeRedemption`; `freshId` is the uuidv4() value and
`now` the `new Date()` instant supplied by the runtime. -/
def executeRedemption (s : StoreState) (userId : String) (points : Int)
    (freshId : String) (now : Int) :
    (Except LoyaltyError RedemptionResponseDto) × StoreState :=
  if points ≤ 0 then
    (.error .invalidAmount, s)
  else if !(userExists s userId) then
    (.error (.userNotFound userId), s)
  else
    let balance := (calculateBalance s userId).balance
    if balance < points then
      (.error (.insufficientPoints balance points), s)
    else
      let redemption : Redemption := ⟨freshId, userId, points, now⟩
      let s2 := redemptionsSave s redemption
      let newBalance := balance - points
      (.ok ⟨freshId, userId, points, now, newBalance⟩, s2)

/-- `LoyaltyService.redeemPoints`: the async wrapper acquires/releases the
per-user lock and runs the synchronous `executeRedemption` in between; as a
state transformer it is `executeRedemption`. -/
def redeemPoints (s : StoreState) (userId : String) (points : Int)
    (freshId : String) (now : Int) :
    (Except LoyaltyError RedemptionResponseDto) × StoreState :=
  executeRedemption s userId points freshId now

/-- Comparator of `getRedemptionHistory`: `(a, b) => b.timestamp - a.timestamp`
keeps `a` before `b` exactly when `b.timestamp ≤ a.timestamp`. -/
def redTimestampLE (a b : Redemption) : Prop :=
  b.timestamp ≤ a.timestamp

instance : DecidableRel redTimestampLE :=
  fun a b => inferInstanceAs (Decidable (b.timestamp ≤ a.timestamp))

instance : IsTotal Redemption redTimestampLE :=
  ⟨fun a b => Int.le_total b.timestamp a.timestamp⟩

instance : IsTrans Redemption redTimestampLE :=
  ⟨fun _ _ _ hab hbc => le_trans hbc hab⟩

/-- The in-place sort `redemptions.sort((a, b) => b.getTime() - a.getTime())`.
`Array.prototype.sort` is a stable sort (ES2019) and all stable sorts under
one consistent comparator agree, so it is modelled with the stable
`List.insertionSort`. -/
def sortRedemptions (l : List Redemption) : List Redemption :=
  l.insertionSort redTimestampLE

structure HistoryItemDto where
  redemptionId : String
  userId : String
  points : Int
  timestamp : Int
deriving DecidableEq

structure HistoryResponseDto where
  userId : String
  redemptions : List HistoryItemDto
deriving DecidableEq

/-- The `.map((r) => ({...}))` projection in `getRedemptionHistory`. -/
def toHistoryItem (r : Redemption) : HistoryItemDto :=
  ⟨r.redemptionId, r.userId, r.points, r.timestamp⟩

/-- `LoyaltyService.getRedemptionHistory`. `findByUserId` hands out the
internal array of the repository when the user has an entry, and `sort` mutates it
in place, so the returned state carries the sorted list at that entry; when the
entry is absent `findByUserId` returns a fresh empty array and the store is
untouched (`Option.map` covers both cases). -/
def getRedemptionHistory (s : StoreState) (userId : String) :
    (Except LoyaltyError HistoryResponseDto) × StoreState :=
  if !(userExists s userId) then
    (.error (.userNotFound userId), s)
  else
    let redemptions := redemptionsFindByUserId s userId
    let sorted := sortRedemptions redemptions
    let s2 : StoreState :=
      { s with
        redemptionsByUser := fun u =>
          if u = userId then (s.redemptionsByUser u).map fun _ => sorted
          else s.redemptionsByUser u }
    (.ok ⟨userId, sorted.map toHistoryItem⟩, s2)

/-- `OrderRepository.seedStubData`, keyed map entries in seeding order. -/
def seedOrders : String → Option (List Order) := fun u =>
  if u = "alice" then
    some [⟨"ord-a1", "alice", 100, .active⟩, ⟨"ord-a2", "alice", 150, .active⟩,
          ⟨"ord-a3", "alice", 50, .active⟩]
  else if u = "bob" then
    some []
  else if u = "charlie" then
    some [⟨"ord-c1", "charlie", 500, .active⟩]
  else if u = "dave" then
    some [⟨"ord-d1", "dave", 200, .active⟩, ⟨"ord-d2", "dave", 100, .cancelled⟩]
  else if u = "eve" then
    some [⟨"ord-e1", "eve", 50, .active⟩, ⟨"ord-e2", "eve", 50, .active⟩,
          ⟨"ord-e3", "eve", 50, .active⟩, ⟨"ord-e4", "eve", 50, .active⟩,
          ⟨"ord-e5", "eve", 50, .active⟩]
  else none

/-- `RedemptionRepository.seedStubData`; timestamps are `Date.getTime()` in
milliseconds for the seeded ISO instants. -/
def seedRedemptions : String → Option (List Redemption) := fun u =>
  if u = "alice" then
    some [⟨"red-a1", "alice", 100, 1737367200000⟩]
  else if u = "charlie" then
    some [⟨"red-c1", "charlie", 250, 1737297000000⟩,
          ⟨"red-c2", "charlie", 250, 1737364500000⟩]
  else if u = "eve" then
    some [⟨"red-e1", "eve", 25, 1737201600000⟩,
          ⟨"red-e2", "eve", 75, 1737305100000⟩]
  else none

/-- The store right after both repository constructors ran. -/
def seedState : StoreState := ⟨seedOrders, seedRedemptions⟩

theorem sum_foldl_orders (l : List Order) (init : Int) :
    l.foldl (fun sum o => sum + o.points) init = init + (l.map Order.points).sum := by
  induction l generalizing init with
  | nil => simp
  | cons a t ih => simp [List.foldl_cons, ih]; omega

theorem sum_foldl_redemptions (l : List Redemption) (init : Int) :
    l.foldl (fun sum r => sum + r.points) init = init + (l.map Redemption.points).sum := by
  induction l generalizing init with
  | nil => simp
  | cons a t ih => simp [List.foldl_cons, ih]; omega

/-- Closed form of `calculateBalance`. -/
theorem calculateBalance_eq (s : StoreState) (u : String) :
    calculateBalance s u =
      ⟨(((ordersFindByUserId s u).filter fun o => o.status == OrderStatus.active).map
          Order.points).sum,
        ((redemptionsFindByUserId s u).map Redemption.points).sum,
        (((ordersFindByUserId s u).filter fun o => o.status == OrderStatus.active).map
          Order.points).sum
          - ((redemptionsFindByUserId s u).map Redemption.points).sum⟩ := by
  unfold calculateBalance
  simp [sum_foldl_orders, sum_foldl_redemptions]

theorem ordersFindByUserId_save (s : StoreState) (r : Redemption) (u : String) :
    ordersFindByUserId (redemptionsSave s r) u = ordersFindByUserId s u := rfl

theorem userExists_save (s : StoreState) (r : Redemption) (u : String) :
    userExists (redemptionsSave s r) u = userExists s u := rfl

theorem redemptionsFindByUserId_save_self (s : StoreState) (r : Redemption) :
    redemptionsFindByUserId (redemptionsSave s r) r.userId
      = redemptionsFindByUserId s r.userId ++ [r] := by
  unfold redemptionsSave redemptionsFindByUserId
  simp

theorem redemptionsFindByUserId_save_other (s : StoreState) (r : Redemption)
    (v : String) (h : v ≠ r.userId) :
    redemptionsFindByUserId (redemptionsSave s r) v = redemptionsFindByUserId s v := by
  unfold redemptionsSave redemptionsFindByUserId
  simp [h]

theorem calculateBalance_save_self (s : StoreState) (r : Redemption) :
    calculateBalance (redemptionsSave s r) r.userId =
      ⟨(calculateBalance s r.userId).earnedPoints,
        (calculateBalance s r.userId).redeemedPoints + r.points,
        (calculateBalance s r.userId).balance - r.points⟩ := by
  rw [calculateBalance_eq, calculateBalance_eq, ordersFindByUserId_save,
    redemptionsFindByUserId_save_self]
  simp [BalanceCalc.mk.injEq]
  omega

theorem calculateBalance_save_other (s : StoreState) (r : Redemption)
    (v : String) (h : v ≠ r.userId) :
    calculateBalance (redemptionsSave s r) v = calculateBalance s v := by
  rw [calculateBalance_eq, calculateBalance_eq, ordersFindByUserId_save,
    redemptionsFindByUserId_save_other s r v h]

/-- Four-way case analysis of `executeRedemption`, following its
check order: positive amount, user existence, sufficient balance, append. -/
theorem executeRedemption_cases (s : StoreState) (u : String) (p : Int)
    (id : String) (now : Int) :
    (p ≤ 0 ∧ executeRedemption s u p id now = (.error .invalidAmount, s)) ∨
    (0 < p ∧ userExists s u = false ∧
      executeRedemption s u p id now = (.error (.userNotFound u), s)) ∨
    (0 < p ∧ userExists s u = true ∧ (calculateBalance s u).balance < p ∧
      executeRedemption s u p id now =
        (.error (.insufficientPoints (calculateBalance s u).balance p), s)) ∨
    (0 < p ∧ userExists s u = true ∧ p ≤ (calculateBalance s u).balance ∧
      executeRedemption s u p id now =
        (.ok ⟨id, u, p, now, (calculateBalance s u).balance - p⟩,
          redemptionsSave s ⟨id, u, p, now⟩)) := by
  by_cases h1 : p ≤ 0
  · exact Or.inl ⟨h1, by unfold executeRedemption; simp [h1]⟩
  · by_cases h2 : userExists s u = true
    · by_cases h3 : (calculateBalance s u).balance < p
      · refine Or.inr (Or.inr (Or.inl ⟨by omega, h2, h3, ?_⟩))
        unfold executeRedemption
        simp [h1, h2, h3]
      · refine Or.inr (Or.inr (Or.inr ⟨by omega, h2, by omega, ?_⟩))
        unfold executeRedemption
        simp [h1, h2, h3]
    · refine Or.inr (Or.inl ⟨by omega, by simpa using h2, ?_⟩)
      unfold executeRedemption
      simp [h1, h2]

theorem redeemPoints_eq_execute (s : StoreState) (u : String) (p : Int)
    (id : String) (now : Int) :
    redeemPoints s u p id now = executeRedemption s u p id now := rfl

/-- C2: `calculateBalance` (and `getBalance` for an existing user) returns
earnedPoints = the sum of points over the orders of the user with status active
(cancelled and refunded excluded by the filter), redeemedPoints = the sum of
points over all redemptions of the user, and balance = earnedPoints -
redeemedPoints with no clamping. -/
theorem calculateBalance_spec (s : StoreState) (u : String) :
    (calculateBalance s u).earnedPoints
      = (((ordersFindByUserId s u).filter fun o => o.status == OrderStatus.active).map
          Order.points).sum ∧
    (calculateBalance s u).redeemedPoints
      = ((redemptionsFindByUserId s u).map Redemption.points).sum ∧
    (calculateBalance s u).balance
      = (calculateBalance s u).earnedPoints - (calculateBalance s u).redeemedPoints ∧
    (userExists s u = true →
      getBalance s u = .ok ⟨u, (calculateBalance s u).balance,
        (calculateBalance s u).earnedPoints, (calculateBalance s u).redeemedPoints⟩) := by
  refine ⟨by rw [calculateBalance_eq], by rw [calculateBalance_eq],
    by rw [calculateBalance_eq], fun h => ?_⟩
  unfold getBalance
  simp [h]

/-- Witness for C2 at the seeded user alice: 300 earned, 100 redeemed, 200. -/
theorem calculateBalance_spec_witness :
    getBalance seedState "alice"
      = .ok ⟨"alice", (calculateBalance seedState "alice").balance,
          (calculateBalance seedState "alice").earnedPoints,
          (calculateBalance seedState "alice").redeemedPoints⟩ ∧
    getBalance seedState "alice" = .ok ⟨"alice", 200, 300, 100⟩ :=
  ⟨(calculateBalance_spec seedState "alice").2.2.2 (by decide),
    ((calculateBalance_spec seedState "alice").2.2.2 (by decide)).trans (by decide)⟩

/-- C9: `getBalance` performs no writes, so calling it twice with no
intervening writes returns identical results (same error or same fields). -/
theorem getBalance_idempotent (s : StoreState) (u : String) :
    (getBalanceRun s u).2 = s ∧
    (getBalanceRun (getBalanceRun s u).2 u).1 = (getBalanceRun s u).1 :=
  ⟨rfl, rfl⟩

/-- C4: redeemPoints fails with InvalidAmount iff points ≤ 0; otherwise with
UserNotFound iff the user does not exist; otherwise with InsufficientPoints
(carrying the available balance and the requested amount) iff points exceed
the balance, so redeeming the exact balance succeeds; otherwise it succeeds;
and every failure leaves the store unchanged. -/
theorem redeemPoints_error_cases (s : StoreState) (u : String) (p : Int)
    (id : String) (now : Int) :
    ((redeemPoints s u p id now).1 = .error .invalidAmount ↔ p ≤ 0) ∧
    ((redeemPoints s u p id now).1 = .error (.userNotFound u) ↔
      0 < p ∧ userExists s u = false) ∧
    (∀ a q, (redeemPoints s u p id now).1 = .error (.insufficientPoints a q) ↔
      0 < p ∧ userExists s u = true ∧ (calculateBalance s u).balance < p ∧
      a = (calculateBalance s u).balance ∧ q = p) ∧
    ((∃ resp, (redeemPoints s u p id now).1 = .ok resp) ↔
      0 < p ∧ userExists s u = true ∧ p ≤ (calculateBalance s u).balance) ∧
    (∀ e, (redeemPoints s u p id now).1 = .error e →
      (redeemPoints s u p id now).2 = s) := by
  rcases executeRedemption_cases s u p id now with
    ⟨h1, heq⟩ | ⟨h1, h2, heq⟩ | ⟨h1, h2, h3, heq⟩ | ⟨h1, h2, h3, heq⟩ <;>
      rw [redeemPoints_eq_execute, heq]
  · refine ⟨by simp [h1], ?_, ?_, ?_, fun e _ => rfl⟩
    · simp only [Prod.fst]
      simp
      rintro hp
      omega
    · intro a q
      simp only [Prod.fst]
      simp
      rintro hp
      omega
    · simp only [Prod.fst]
      simp
      rintro hp
      omega
  · refine ⟨?_, by simp [h1, h2], ?_, ?_, fun e _ => rfl⟩
    · simp only [Prod.fst]
      simp
      omega
    · intro a q
      simp [h2]
    · simp [h2]
  · refine ⟨?_, by simp [h2], ?_, ?_, fun e _ => rfl⟩
    · simp only [Prod.fst]
      simp
      omega
    · intro a q
      simp only [Prod.fst]
      simp [h1, h2, h3, eq_comm]
    · simp only [Prod.fst]
      simp [h2]
      rintro hp
      omega
  · refine ⟨?_, by simp [h2], ?_, by simp [h1, h2, h3], by simp⟩
    · simp only [Prod.fst]
      simp
      omega
    · intro a q
      simp only [Prod.fst]
      simp [h2]
      rintro hp hlt
      omega

/-- Witness for C4: redeeming 0 points from the seeded store fails with
InvalidAmount and leaves the store untouched. -/
theorem redeemPoints_error_cases_witness :
    (redeemPoints seedState "alice" 0 "rid-w4" 7).1 = .error .invalidAmount ∧
    (redeemPoints seedState "alice" 0 "rid-w4" 7).2 = seedState := by
  have h := redeemPoints_error_cases seedState "alice" 0 "rid-w4" 7
  exact ⟨h.1.mpr (by omega), h.2.2.2.2 _ (h.1.mpr (by omega))⟩

/-- C3: when redeemPoints succeeds, the response carries the freshly generated
id, the user, the points, timestamp = now and newBalance = acceptance-time
balance minus points; the new record is appended to the stored
redemptions before the call returns; and a subsequent getBalance with no other
intervening writes reports exactly old balance - points. -/
theorem redeemPoints_success_post (s : StoreState) (u : String) (p : Int)
    (id : String) (now : Int) (resp : RedemptionResponseDto) (s2 : StoreState)
    (h : redeemPoints s u p id now = (.ok resp, s2)) :
    resp = ⟨id, u, p, now, (calculateBalance s u).balance - p⟩ ∧
    redemptionsFindByUserId s2 u
      = redemptionsFindByUserId s u ++ [⟨id, u, p, now⟩] ∧
    getBalance s2 u = .ok ⟨u, (calculateBalance s u).balance - p,
      (calculateBalance s u).earnedPoints,
      (calculateBalance s u).redeemedPoints + p⟩ := by
  rcases executeRedemption_cases s u p id now with
    ⟨h1, heq⟩ | ⟨h1, h2, heq⟩ | ⟨h1, h2, h3, heq⟩ | ⟨h1, h2, h3, heq⟩ <;>
      rw [redeemPoints_eq_execute, heq] at h
  · exact absurd (congrArg Prod.fst h) (by simp)
  · exact absurd (congrArg Prod.fst h) (by simp)
  · exact absurd (congrArg Prod.fst h) (by simp)
  · rw [Prod.mk.injEq] at h
    obtain ⟨hr, hs⟩ := h
    subst hs
    refine ⟨(Except.ok.inj hr).symm, ?_, ?_⟩
    · simpa using redemptionsFindByUserId_save_self s ⟨id, u, p, now⟩
    · have hb := calculateBalance_save_self s ⟨id, u, p, now⟩
      simp [getBalance, userExists_save, h2, hb]

/-- Witness for C3: alice (balance 200) redeems 100; the record is appended
and getBalance afterwards reports 100. -/
theorem redeemPoints_success_post_witness :
    redemptionsFindByUserId (redeemPoints seedState "alice" 100 "rid-w3" 999).2 "alice"
      = redemptionsFindByUserId seedState "alice" ++ [⟨"rid-w3", "alice", 100, 999⟩] ∧
    getBalance (redeemPoints seedState "alice" 100 "rid-w3" 999).2 "alice"
      = .ok ⟨"alice", 100, 300, 200⟩ := by
  have hfst : (redeemPoints seedState "alice" 100 "rid-w3" 999).1
      = .ok ⟨"rid-w3", "alice", 100, 999, 100⟩ := by decide
  have hpair : redeemPoints seedState "alice" 100 "rid-w3" 999
      = (.ok ⟨"rid-w3", "alice", 100, 999, 100⟩,
          (redeemPoints seedState "alice" 100 "rid-w3" 999).2) := by
    rw [← hfst]
  have h := redeemPoints_success_post seedState "alice" 100 "rid-w3" 999 _ _ hpair
  exact ⟨h.2.1, h.2.2.trans (by decide)⟩

/-- The no-overdraft invariant: the derived balance of every user is nonnegative. -/
def allBalancesNonneg (s : StoreState) : Prop :=
  ∀ u, 0 ≤ (calculateBalance s u).balance

/-- One inbound redeemPoints request: user, amount, generated id, clock value. -/
structure RedeemCall where
  userId : String
  points : Int
  freshId : String
  now : Int

/-- A sequence of redeemPoints calls, each (successful or failed) acting on the
state left by the previous one. -/
def runRedeemCalls (s : StoreState) (calls : List RedeemCall) : StoreState :=
  calls.foldl (fun st c => (redeemPoints st c.userId c.points c.freshId c.now).2) s

theorem redeem_step_nonneg (s : StoreState) (u : String) (p : Int) (id : String)
    (now : Int) (h : allBalancesNonneg s) :
    allBalancesNonneg (redeemPoints s u p id now).2 := by
  rcases executeRedemption_cases s u p id now with
    ⟨h1, heq⟩ | ⟨h1, h2, heq⟩ | ⟨h1, h2, h3, heq⟩ | ⟨h1, h2, h3, heq⟩ <;>
      rw [redeemPoints_eq_execute, heq]
  · exact h
  · exact h
  · exact h
  · intro v
    show 0 ≤ (calculateBalance (redemptionsSave s ⟨id, u, p, now⟩) v).balance
    by_cases hv : v = u
    · subst hv
      have hb := calculateBalance_save_self s ⟨id, v, p, now⟩
      rw [hb]
      have := h v
      simp only []
      omega
    · rw [calculateBalance_save_other s ⟨id, u, p, now⟩ v hv]
      exact h v

/-- C1: from any state where the balance of every user is nonnegative, every
sequence of redeemPoints calls (successes and failures alike) preserves
nonnegativity of the balance of every user; a success subtracts exactly the
redeemed points (p ≤ old balance, no clamping), and every failure is a
rejection that leaves the store unchanged. -/
theorem redeem_sequence_preserves_nonneg (s : StoreState) (calls : List RedeemCall)
    (h : allBalancesNonneg s) :
    allBalancesNonneg (runRedeemCalls s calls) ∧
    (∀ u p id now resp s2, redeemPoints s u p id now = (.ok resp, s2) →
      p ≤ (calculateBalance s u).balance ∧
      (calculateBalance s2 u).balance = (calculateBalance s u).balance - p ∧
      0 ≤ (calculateBalance s2 u).balance) ∧
    (∀ u p id now e s2, redeemPoints s u p id now = (.error e, s2) → s2 = s) := by
  refine ⟨?_, ?_, ?_⟩
  · induction calls generalizing s with
    | nil => exact h
    | cons c rest ih =>
      rw [runRedeemCalls, List.foldl_cons]
      exact ih _ (redeem_step_nonneg s c.userId c.points c.freshId c.now h)
  · intro u p id now resp s2 hok
    rcases executeRedemption_cases s u p id now with
      ⟨h1, heq⟩ | ⟨h1, h2, heq⟩ | ⟨h1, h2, h3, heq⟩ | ⟨h1, h2, h3, heq⟩ <;>
        rw [redeemPoints_eq_execute, heq] at hok
    · exact absurd (congrArg Prod.fst hok) (by simp)
    · exact absurd (congrArg Prod.fst hok) (by simp)
    · exact absurd (congrArg Prod.fst hok) (by simp)
    · rw [Prod.mk.injEq] at hok
      obtain ⟨-, hs⟩ := hok
      subst hs
      have hb := calculateBalance_save_self s ⟨id, u, p, now⟩
      rw [hb]
      have := h u
      refine ⟨h3, by simp, ?_⟩
      simp only []
      omega
  · intro u p id now e s2 herr
    rcases executeRedemption_cases s u p id now with
      ⟨h1, heq⟩ | ⟨h1, h2, heq⟩ | ⟨h1, h2, h3, heq⟩ | ⟨h1, h2, h3, heq⟩ <;>
        rw [redeemPoints_eq_execute, heq] at herr
    · exact (congrArg Prod.snd herr).symm
    · exact (congrArg Prod.snd herr).symm
    · exact (congrArg Prod.snd herr).symm
    · exact absurd (congrArg Prod.fst herr) (by simp)

/-- Witness for C1: the seeded store satisfies the invariant and keeps it
through a sequence of two redemption attempts (one succeeding, one rejected). -/
theorem redeem_sequence_preserves_nonneg_witness :
    allBalancesNonneg
      (runRedeemCalls seedState
        [⟨"eve", 100, "rid-w1a", 11⟩, ⟨"eve", 100, "rid-w1b", 12⟩]) := by
  have hseed : allBalancesNonneg seedState := by
    intro u
    by_cases h1 : u = "alice"
    · subst h1; decide
    · by_cases h2 : u = "bob"
      · subst h2; decide
      · by_cases h3 : u = "charlie"
        · subst h3; decide
        · by_cases h4 : u = "dave"
          · subst h4; decide
          · by_cases h5 : u = "eve"
            · subst h5; decide
            · simp [calculateBalance, ordersFindByUserId, redemptionsFindByUserId,
                seedState, seedOrders, seedRedemptions, h1, h2, h3, h4, h5]
  exact (redeem_sequence_preserves_nonneg seedState
    [⟨"eve", 100, "rid-w1a", 11⟩, ⟨"eve", 100, "rid-w1b", 12⟩] hseed).1

/-- C8 counterexample: the seeded user bob has a store entry holding zero
orders, yet userExists is true and getBalance succeeds with balance 0 rather
than failing with UserNotFound, refuting "true iff at least one order is
recorded". -/
theorem userExists_empty_orders_counterexample :
    userExists seedState "bob" = true ∧
    ordersFindByUserId seedState "bob" = [] ∧
    getBalance seedState "bob" = .ok ⟨"bob", 0, 0, 0⟩ := by
  decide

/-- C8 amended: userExists is true iff the order store has an entry for the
user, possibly one with an empty order list; getBalance and
getRedemptionHistory fail with UserNotFound exactly for users with no entry,
and redeemPoints does too once the amount is positive. -/
theorem userExists_amended (s : StoreState) (u : String) :
    (userExists s u = true ↔ (s.ordersByUser u).isSome) ∧
    (getBalance s u = .error (.userNotFound u) ↔ userExists s u = false) ∧
    ((getRedemptionHistory s u).1 = .error (.userNotFound u) ↔
      userExists s u = false) ∧
    (∀ p id now, 0 < p →
      ((redeemPoints s u p id now).1 = .error (.userNotFound u) ↔
        userExists s u = false)) := by
  refine ⟨Iff.rfl, ?_, ?_, ?_⟩
  · unfold getBalance
    cases hu : userExists s u <;> simp [hu]
  · unfold getRedemptionHistory
    cases hu : userExists s u <;> simp [hu]
  · intro p id now hp
    rcases executeRedemption_cases s u p id now with
      ⟨h1, heq⟩ | ⟨h1, h2, heq⟩ | ⟨h1, h2, h3, heq⟩ | ⟨h1, h2, h3, heq⟩ <;>
        rw [redeemPoints_eq_execute, heq]
    · omega
    · simp [h2]
    · simp [h2]
    · simp [h2]

/-- Witness for C8: the entry of bob exists, and a truly unknown user is rejected
with UserNotFound on a positive redemption. -/
theorem userExists_amended_witness :
    (userExists seedState "bob" = true ↔ (seedState.ordersByUser "bob").isSome) ∧
    ((redeemPoints seedState "nosuch" 5 "rid-w8" 3).1
        = .error (.userNotFound "nosuch") ↔ userExists seedState "nosuch" = false) :=
  ⟨(userExists_amended seedState "bob").1,
    (userExists_amended seedState "nosuch").2.2.2 5 "rid-w8" 3 (by omega)⟩

/-- A fresh user with one active order worth 100 and no redemptions yet. -/
def tieBase : StoreState :=
  ⟨fun u => if u = "tess" then some [⟨"ord-t1", "tess", 100, .active⟩] else none,
    fun _ => none⟩

/-- Two redemptions with the same timestamp 500; red-t1 is appended first,
red-t2 second. -/
def tieState : StoreState :=
  (redeemPoints (redeemPoints tieBase "tess" 10 "red-t1" 500).2
    "tess" 20 "red-t2" 500).2

/-- C6 counterexample: with equal timestamps the history lists the first-
appended redemption red-t1 before the most-recently-appended red-t2 (the
stable sort keeps insertion order), so the claimed reverse insertion order
does not hold. -/
theorem history_tie_counterexample :
    (getRedemptionHistory tieState "tess").1
      = .ok ⟨"tess", [⟨"red-t1", "tess", 10, 500⟩, ⟨"red-t2", "tess", 20, 500⟩]⟩ ∧
    [(⟨"red-t1", "tess", 10, 500⟩ : HistoryItemDto), ⟨"red-t2", "tess", 20, 500⟩]
      ≠ [⟨"red-t2", "tess", 20, 500⟩, ⟨"red-t1", "tess", 10, 500⟩] := by
  decide

/-- C6 amended: for an existing user the history is the stored
redemptions sorted by timestamp descending, and redemptions with equal
timestamps keep their insertion order, earliest-appended first (the sort is
stable). -/
theorem history_sorted_amended (s : StoreState) (u : String)
    (hex : userExists s u = true) :
    (getRedemptionHistory s u).1
      = .ok ⟨u, (sortRedemptions (redemptionsFindByUserId s u)).map toHistoryItem⟩ ∧
    List.Perm (sortRedemptions (redemptionsFindByUserId s u))
      (redemptionsFindByUserId s u) ∧
    (sortRedemptions (redemptionsFindByUserId s u)).Pairwise
      (fun a b => b.timestamp ≤ a.timestamp) ∧
    (∀ a b : Redemption, List.Sublist [a, b] (redemptionsFindByUserId s u) →
      b.timestamp ≤ a.timestamp →
      List.Sublist [a, b] (sortRedemptions (redemptionsFindByUserId s u))) := by
  refine ⟨?_, ?_, ?_, ?_⟩
  · unfold getRedemptionHistory
    simp [hex]
  · exact List.perm_insertionSort redTimestampLE _
  · exact List.sorted_insertionSort redTimestampLE _
  · intro a b hsub hts
    exact List.pair_sublist_insertionSort hts hsub

/-- Witness for C6 at the seeded user eve: red-e2 (newer) precedes red-e1. -/
theorem history_sorted_amended_witness :
    (getRedemptionHistory seedState "eve").1
      = .ok ⟨"eve", [⟨"red-e2", "eve", 75, 1737305100000⟩,
          ⟨"red-e1", "eve", 25, 1737201600000⟩]⟩ :=
  ((history_sorted_amended seedState "eve" (by decide)).1).trans (by decide)

theorem hist_state_not_exists (s : StoreState) (u : String)
    (hex : userExists s u = false) : (getRedemptionHistory s u).2 = s := by
  unfold getRedemptionHistory
  simp [hex]

theorem hist_result_exists (s : StoreState) (u : String)
    (hex : userExists s u = true) :
    (getRedemptionHistory s u).1
      = .ok ⟨u, (sortRedemptions (redemptionsFindByUserId s u)).map toHistoryItem⟩ := by
  unfold getRedemptionHistory
  simp [hex]

theorem hist_state_orders (s : StoreState) (u : String) :
    (getRedemptionHistory s u).2.ordersByUser = s.ordersByUser := by
  unfold getRedemptionHistory
  split <;> rfl

theorem userExists_hist (s : StoreState) (u v : String) :
    userExists (getRedemptionHistory s u).2 v = userExists s v := by
  unfold userExists
  rw [hist_state_orders]

theorem ordersFind_hist (s : StoreState) (u v : String) :
    ordersFindByUserId (getRedemptionHistory s u).2 v = ordersFindByUserId s v := by
  unfold ordersFindByUserId
  rw [hist_state_orders]

theorem redemptionsFind_hist_self (s : StoreState) (u : String)
    (hex : userExists s u = true) :
    redemptionsFindByUserId (getRedemptionHistory s u).2 u
      = sortRedemptions (redemptionsFindByUserId s u) := by
  unfold getRedemptionHistory
  simp only [hex, Bool.not_true, Bool.false_eq_true, if_false]
  unfold redemptionsFindByUserId
  cases h : s.redemptionsByUser u with
  | none => simp [h, sortRedemptions, List.insertionSort]
  | some l => simp [h]

theorem redemptionsFind_hist_other (s : StoreState) (u v : String)
    (hv : v ≠ u) :
    redemptionsFindByUserId (getRedemptionHistory s u).2 v
      = redemptionsFindByUserId s v := by
  unfold getRedemptionHistory
  split
  · rfl
  · unfold redemptionsFindByUserId
    simp [hv]

theorem redemptionsFind_hist_perm (s : StoreState) (u v : String) :
    List.Perm (redemptionsFindByUserId (getRedemptionHistory s u).2 v)
      (redemptionsFindByUserId s v) := by
  cases hex : userExists s u with
  | false =>
    rw [hist_state_not_exists s u hex]
  | true =>
    by_cases hv : v = u
    · subst hv
      rw [redemptionsFind_hist_self s v hex]
      exact List.perm_insertionSort redTimestampLE _
    · rw [redemptionsFind_hist_other s u v hv]

theorem calculateBalance_hist (s : StoreState) (u v : String) :
    calculateBalance (getRedemptionHistory s u).2 v = calculateBalance s v := by
  rw [calculateBalance_eq, calculateBalance_eq, ordersFind_hist]
  have hsum : ((redemptionsFindByUserId (getRedemptionHistory s u).2 v).map
      Redemption.points).sum = ((redemptionsFindByUserId s v).map Redemption.points).sum :=
    ((redemptionsFind_hist_perm s u v).map Redemption.points).sum_eq
  rw [hsum]

theorem hist_result_congr (s1 s2 : StoreState) (v : String)
    (h1 : userExists s1 v = userExists s2 v)
    (h2 : redemptionsFindByUserId s1 v = redemptionsFindByUserId s2 v) :
    (getRedemptionHistory s1 v).1 = (getRedemptionHistory s2 v).1 := by
  unfold getRedemptionHistory
  rw [h1, h2]
  split <;> rfl

/-- C10: getRedemptionHistory sorts the stored repository array in place,
yet it permutes (never adds, drops or edits) the stored redemptions of each user,
so every subsequent getBalance and getRedemptionHistory call, for every user,
returns exactly what it would have returned without the history read. -/
theorem history_read_frame (s : StoreState) (u : String) :
    (∀ v, List.Perm (redemptionsFindByUserId (getRedemptionHistory s u).2 v)
      (redemptionsFindByUserId s v)) ∧
    (∀ v, getBalance (getRedemptionHistory s u).2 v = getBalance s v) ∧
    (∀ v, (getRedemptionHistory (getRedemptionHistory s u).2 v).1
      = (getRedemptionHistory s v).1) := by
  refine ⟨redemptionsFind_hist_perm s u, ?_, ?_⟩
  · intro v
    unfold getBalance
    rw [userExists_hist, calculateBalance_hist]
  · intro v
    cases hex : userExists s u with
    | false => rw [hist_state_not_exists s u hex]
    | true =>
      by_cases hv : v = u
      · subst hv
        rw [hist_result_exists _ v (by rw [userExists_hist]; exact hex),
          hist_result_exists s v hex, redemptionsFind_hist_self s v hex]
        have hs := List.sorted_insertionSort redTimestampLE
          (redemptionsFindByUserId s v)
        unfold sortRedemptions
        rw [hs.insertionSort_eq]
      · exact hist_result_congr _ s v (userExists_hist s u v)
          (redemptionsFind_hist_other s u v hv)

/-- C7: the implemented getRedemptionHistory accepts no limit/offset
parameters, never slices, and returns only userId and the redemptions: for
every existing user the result carries every stored redemption, its length
being the full stored count rather than a page. -/
theorem history_returns_all_unpaginated (s : StoreState) (u : String)
    (hex : userExists s u = true) :
    (getRedemptionHistory s u).1
      = .ok ⟨u, (sortRedemptions (redemptionsFindByUserId s u)).map toHistoryItem⟩ ∧
    ((getRedemptionHistory s u).1.map fun resp => resp.redemptions.length)
      = .ok (redemptionsFindByUserId s u).length := by
  refine ⟨hist_result_exists s u hex, ?_⟩
  rw [hist_result_exists s u hex]
  simp [Except.map, sortRedemptions, List.length_insertionSort]

/-- A user with 60 stored redemptions, more than the claimed default page
size of 50. -/
def manyRedemptions : List Redemption :=
  (List.range 60).map fun i => ⟨"red-m" ++ toString i, "mona", 1, (i : Int)⟩

def manyState : StoreState :=
  ⟨fun u => if u = "mona" then some [⟨"ord-m1", "mona", 100, .active⟩] else none,
    fun u => if u = "mona" then some manyRedemptions else none⟩

/-- Witness for C7: the user with 60 stored redemptions gets all 60 back, not
a default page of 50. -/
theorem history_returns_all_unpaginated_witness :
    ((getRedemptionHistory manyState "mona").1.map fun resp => resp.redemptions.length)
      = .ok 60 ∧ (60 : Nat) ≠ 50 :=
  ⟨((history_returns_all_unpaginated manyState "mona" (by decide)).2).trans
    (by decide), by decide⟩

/-- One redemption attempt against a fixed user: amount, generated id, clock
value. -/
structure RedeemRequest where
  points : Int
  freshId : String
  now : Int

/-- A linearization of concurrent redeemPoints calls for one user: since
`executeRedemption` is synchronous, every interleaving executes the critical
sections atomically in some sequential order, which this function replays. -/
def runSameUser (u : String) : StoreState → List RedeemRequest →
    (List (Except LoyaltyError RedemptionResponseDto)) × StoreState
  | s, [] => ([], s)
  | s, r :: rest =>
    let step := redeemPoints s u r.points r.freshId r.now
    let next := runSameUser u step.2 rest
    (step.1 :: next.1, next.2)

def redeemSucceeded : Except LoyaltyError RedemptionResponseDto → Bool
  | .ok _ => true
  | .error _ => false

/-- Total points of the successful attempts. -/
def sumSuccessful (rs : List (Except LoyaltyError RedemptionResponseDto)) : Int :=
  (rs.map fun res => match res with | .ok resp => resp.points | .error _ => 0).sum

/-- Modelled from the spec: "exactly the subset (in linearized order) that
fits within the balance" succeeds - the greedy accept decisions along the
linearization order, starting from the initial balance. -/
def specFits : Int → List RedeemRequest → List Bool
  | _, [] => []
  | bal, r :: rest =>
    if r.points ≤ bal then true :: specFits (bal - r.points) rest
    else false :: specFits bal rest

/-- C5: for any linearization of N concurrent redemptions of one existing
user with positive amounts, starting from a nonnegative balance: exactly the
greedy subset that fits the balance (in linearized order) succeeds; every
other attempt fails with InsufficientPoints carrying the balance it observed;
the total redeemed never exceeds the initial balance, which decreases by
exactly that total; and balances of other users and stored redemptions are
untouched, so redemptions of different users never interact. -/
theorem concurrent_same_user_no_overdraft (s : StoreState) (u : String)
    (reqs : List RedeemRequest) (hex : userExists s u = true)
    (hpos : ∀ r ∈ reqs, 0 < r.points)
    (hnn : 0 ≤ (calculateBalance s u).balance) :
    (runSameUser u s reqs).1.map redeemSucceeded
      = specFits (calculateBalance s u).balance reqs ∧
    sumSuccessful (runSameUser u s reqs).1 ≤ (calculateBalance s u).balance ∧
    (calculateBalance (runSameUser u s reqs).2 u).balance
      = (calculateBalance s u).balance - sumSuccessful (runSameUser u s reqs).1 ∧
    (∀ res ∈ (runSameUser u s reqs).1,
      (∃ resp, res = .ok resp) ∨ ∃ a q, res = .error (.insufficientPoints a q)) ∧
    (∀ v, v ≠ u →
      calculateBalance (runSameUser u s reqs).2 v = calculateBalance s v ∧
      redemptionsFindByUserId (runSameUser u s reqs).2 v
        = redemptionsFindByUserId s v) := by
  induction reqs generalizing s with
  | nil =>
    refine ⟨rfl, ?_, ?_, ?_, ?_⟩
    · simpa [runSameUser, sumSuccessful] using hnn
    · simp [runSameUser, sumSuccessful]
    · simp [runSameUser]
    · intro v _
      exact ⟨rfl, rfl⟩
  | cons r rest ih =>
    have hp : 0 < r.points := hpos r (List.mem_cons_self r rest)
    have hposrest : ∀ x ∈ rest, 0 < x.points :=
      fun x hx => hpos x (List.mem_cons_of_mem r hx)
    rcases executeRedemption_cases s u r.points r.freshId r.now with
      ⟨h1, heq⟩ | ⟨h1, h2, heq⟩ | ⟨h1, h2, h3, heq⟩ | ⟨h1, h2, h3, heq⟩
    · omega
    · rw [hex] at h2
      exact absurd h2 (by simp)
    · -- rejected with InsufficientPoints; the state is unchanged
      have hrun : runSameUser u s (r :: rest)
          = ((.error (.insufficientPoints (calculateBalance s u).balance r.points))
              :: (runSameUser u s rest).1, (runSameUser u s rest).2) := by
        rw [runSameUser, redeemPoints_eq_execute, heq]
      obtain ⟨ih1, ih2, ih3, ih4, ih5⟩ := ih s hex hposrest hnn
      rw [hrun]
      have hfits : specFits (calculateBalance s u).balance (r :: rest)
          = false :: specFits (calculateBalance s u).balance rest := by
        rw [specFits]
        simp [show ¬(r.points ≤ (calculateBalance s u).balance) by omega]
      refine ⟨?_, ?_, ?_, ?_, ?_⟩
      · rw [hfits]
        simpa [redeemSucceeded] using ih1
      · simpa [sumSuccessful] using ih2
      · simpa [sumSuccessful] using ih3
      · intro res hres
        rcases List.mem_cons.mp hres with hres | hres
        · exact Or.inr ⟨_, _, hres⟩
        · exact ih4 res hres
      · exact ih5
    · -- accepted; the record is appended to the array of the user
      have hrun : runSameUser u s (r :: rest)
          = ((.ok ⟨r.freshId, u, r.points, r.now,
                (calculateBalance s u).balance - r.points⟩)
              :: (runSameUser u
                  (redemptionsSave s ⟨r.freshId, u, r.points, r.now⟩) rest).1,
              (runSameUser u
                  (redemptionsSave s ⟨r.freshId, u, r.points, r.now⟩) rest).2) := by
        rw [runSameUser, redeemPoints_eq_execute, heq]
      set s1 := redemptionsSave s ⟨r.freshId, u, r.points, r.now⟩ with hs1
      have hex1 : userExists s1 u = true := by
        rw [hs1, userExists_save]
        exact hex
      have hbal1 : calculateBalance s1 u
          = ⟨(calculateBalance s u).earnedPoints,
              (calculateBalance s u).redeemedPoints + r.points,
              (calculateBalance s u).balance - r.points⟩ :=
        calculateBalance_save_self s ⟨r.freshId, u, r.points, r.now⟩
      have hnn1 : 0 ≤ (calculateBalance s1 u).balance := by
        rw [hbal1]
        simp only []
        omega
      obtain ⟨ih1, ih2, ih3, ih4, ih5⟩ := ih s1 hex1 hposrest hnn1
      rw [hrun]
      have hfits : specFits (calculateBalance s u).balance (r :: rest)
          = true :: specFits ((calculateBalance s u).balance - r.points) rest := by
        rw [specFits]
        simp [h3]
      have hb1 : (calculateBalance s1 u).balance
          = (calculateBalance s u).balance - r.points := by
        rw [hbal1]
      refine ⟨?_, ?_, ?_, ?_, ?_⟩
      · rw [hfits]
        rw [hb1] at ih1
        simpa [redeemSucceeded] using ih1
      · rw [hb1] at ih2
        simp only [sumSuccessful, List.map_cons, List.sum_cons] at ih2 ⊢
        omega
      · rw [hb1] at ih3
        simp only [sumSuccessful, List.map_cons, List.sum_cons] at ih3 ⊢
        omega
      · intro res hres
        rcases List.mem_cons.mp hres with hres | hres
        · exact Or.inl ⟨_, hres⟩
        · exact ih4 res hres
      · intro v hv
        obtain ⟨ihb, ihf⟩ := ih5 v hv
        refine ⟨?_, ?_⟩
        · rw [ihb, hs1, calculateBalance_save_other s _ v hv]
        · rw [ihf, hs1, redemptionsFindByUserId_save_other s _ v hv]

/-- Witness for C5: three attempts against the balance of eve of 150 with amounts
100, 100 and 50: the first and third fit, the second is rejected, and the
total redeemed stays within the initial balance. -/
theorem concurrent_same_user_no_overdraft_witness :
    (runSameUser "eve" seedState
        [⟨100, "rid-w5a", 21⟩, ⟨100, "rid-w5b", 22⟩, ⟨50, "rid-w5c", 23⟩]).1.map
        redeemSucceeded
      = specFits (calculateBalance seedState "eve").balance
          [⟨100, "rid-w5a", 21⟩, ⟨100, "rid-w5b", 22⟩, ⟨50, "rid-w5c", 23⟩] ∧
    sumSuccessful (runSameUser "eve" seedState
        [⟨100, "rid-w5a", 21⟩, ⟨100, "rid-w5b", 22⟩, ⟨50, "rid-w5c", 23⟩]).1
      ≤ (calculateBalance seedState "eve").balance :=
  ⟨(concurrent_same_user_no_overdraft seedState "eve"
      [⟨100, "rid-w5a", 21⟩, ⟨100, "rid-w5b", 22⟩, ⟨50, "rid-w5c", 23⟩]
      (by decide) (by decide) (by decide)).1,
    (concurrent_same_user_no_overdraft seedState "eve"
      [⟨100, "rid-w5a", 21⟩, ⟨100, "rid-w5b", 22⟩, ⟨50, "rid-w5c", 23⟩]
      (by decide) (by decide) (by decide)).2.1⟩

end Loyalty
